import Mathlib

/-
Verification of tf-bench's measurement engine (bench/bench.go).

The definitions below are a shallow embedding of the living revision of
bench.go: the event-stream strategy (eventLogRefreshBenchmark), the
isolation strategy's measureRefresh, the state grouping, the version
probe, and the report ranking.  Durations and timestamps are modelled as
Int (nanoseconds, Go's time.Duration is an int64; overflow is immaterial
to the properties below).  Go maps keyed by strings are determinized as
association lists preserving first-insertion key order; all the
aggregate quantities proved about are invariant under the iteration
order of the real maps.
-/

/-- One structured record of the Terraform event log, as decoded by the
tfEvent struct in eventLogRefreshBenchmark: an event kind tag, an
RFC3339 timestamp (modelled in integer nanoseconds), and the hook's
resource address and resource type. -/
structure TfEvent where
  eventType : String
  timestamp : Int
  addr : String
  resourceType : String
deriving DecidableEq, Repr

/-- Go map assignment m[k] = v on an association list: overwrite in
place if the key is present, append otherwise. -/
def upsert (m : List (String × TfEvent)) (k : String) (v : TfEvent) :
    List (String × TfEvent) :=
  match m with
  | [] => [(k, v)]
  | (k1, v1) :: rest =>
    if k1 = k then (k, v) :: rest else (k1, v1) :: upsert rest k v

/-- Go map lookup on an association list. -/
def alookup (m : List (String × TfEvent)) (k : String) : Option TfEvent :=
  match m with
  | [] => none
  | (k1, v1) :: rest => if k1 = k then some v1 else alookup rest k

/-- One scanner step of the `starts` map: on a refresh_start event record
the event under its address (starts[event.Hook.Resource.Addr] = event). -/
def startStep (m : List (String × TfEvent)) (e : TfEvent) :
    List (String × TfEvent) :=
  if e.eventType = "refresh_start" then upsert m e.addr e else m

/-- One scanner step of the `ends` map: on a refresh_complete event record
the event under its address. -/
def endStep (m : List (String × TfEvent)) (e : TfEvent) :
    List (String × TfEvent) :=
  if e.eventType = "refresh_complete" then upsert m e.addr e else m

/-- The `starts` map after the scanner has consumed the whole stream.
The source fills `starts` and `ends` in a single pass; the two maps are
updated independently, so they are embedded as two folds over the same
event list. -/
def buildStarts (es : List TfEvent) : List (String × TfEvent) :=
  es.foldl startStep []

/-- The `ends` map after the scanner has consumed the whole stream. -/
def buildEnds (es : List TfEvent) : List (String × TfEvent) :=
  es.foldl endStep []

/-- One entry of the `measurements` map: a duration and the owning
address (the ResourceMeasurement struct of eventLogRefreshBenchmark). -/
structure ResourceMeasurement where
  d : Int
  id : String
deriving DecidableEq, Repr

/-- The body of the post-stream pairing loop, for one `starts` entry:
if the address is also in `ends`, emit (resource type, duration =
complete timestamp minus start timestamp, owning address). -/
def measPair (E : List (String × TfEvent)) (p : String × TfEvent) :
    Option (String × ResourceMeasurement) :=
  match alookup E p.1 with
  | some endEv =>
    some (p.2.resourceType,
      { d := endEv.timestamp - p.2.timestamp, id := p.2.addr })
  | none => none

/-- The post-stream pairing loop over every address of `starts`,
determinized in the key order of the `starts` map. -/
def buildMeasurements (es : List TfEvent) :
    List (String × ResourceMeasurement) :=
  (buildStarts es).filterMap (measPair (buildEnds es))

/-- measurements[resourceType]: the duration samples attributed to one
resource type in one iteration. -/
def measurementsOfType (es : List TfEvent) (ty : String) :
    List ResourceMeasurement :=
  (buildMeasurements es).filterMap (fun p =>
    if p.1 = ty then some p.2 else none)

/-- The raw durations attributed to one resource type in one iteration. -/
def durationsOfType (es : List TfEvent) (ty : String) : List Int :=
  (measurementsOfType es ty).map (fun m => m.d)

/-- Go's (1 << 63) - 1, the initial Min of a fresh ResourceReport. -/
def int64Max : Int := 9223372036854775807

/-- The mutable per-type ResourceReport state threaded across iterations
(Name is the map key and kept outside; StdDev is attached at the end). -/
structure RState where
  count : Nat
  totalTime : Int
  minD : Int
  maxD : Int
  minId : String
  maxId : String
deriving DecidableEq, Repr

/-- A freshly allocated ResourceReport: Count is the number of samples of
the current iteration, Min is (1 << 63) - 1, every other field is the Go
zero value. -/
def freshRState (n : Nat) : RState :=
  { count := n, totalTime := 0, minD := int64Max, maxD := 0,
    minId := "", maxId := "" }

/-- The running-minimum update of the measurement loop: if the duration
is strictly below the current Min, record it and its owning address. -/
def minUpdate (r : RState) (m : ResourceMeasurement) : RState :=
  if m.d < r.minD then { r with minD := m.d, minId := m.id } else r

/-- The running-maximum update of the measurement loop. -/
def maxUpdate (r : RState) (m : ResourceMeasurement) : RState :=
  if m.d > r.maxD then { r with maxD := m.d, maxId := m.id } else r

/-- The body of the per-measurement loop: append the duration to the
pooled overall data, accumulate the iteration total, and update the
running min/max together with the owning address (the four updates act
on disjoint state and are performed in the source's order). -/
def measStep (acc : RState × Int × List Int) (m : ResourceMeasurement) :
    RState × Int × List Int :=
  (maxUpdate (minUpdate acc.1 m) m, acc.2.1 + m.d, acc.2.2 ++ [m.d])

/-- Processing of one iteration for one resource type: if the type has no
measurements this iteration it is untouched; otherwise fetch or allocate
its ResourceReport, run the measurement loop, and add the iteration's
truncated integer mean to the accumulated TotalTime. -/
def stepIteration (ty : String) (s : Option RState × List Int)
    (es : List TfEvent) : Option RState × List Int :=
  match measurementsOfType es ty with
  | [] => s
  | m :: ms =>
    let r0 :=
      match s.1 with
      | some r => r
      | none => freshRState (m :: ms).length
    let acc := (m :: ms).foldl measStep (r0, 0, s.2)
    let avg := Int.tdiv acc.2.1 ((m :: ms).length : Int)
    (some { acc.1 with totalTime := acc.1.totalTime + avg }, acc.2.2)

/-- The whole iteration loop of eventLogRefreshBenchmark, projected onto
one resource type: the final reports[ty] entry (if the type was ever
observed) and the final resourceOverallData[ty] pooled duration list. -/
def runEventLog (iters : List (List TfEvent)) (ty : String) :
    Option RState × List Int :=
  iters.foldl (stepIteration ty) (none, [])

/-- The reported final mean for a type: the accumulated TotalTime divided
(with Go's truncated int64 division) by cfg.Iterations, which equals the
number of executed iterations. -/
def reportedMean (iters : List (List TfEvent)) (ty : String) : Option Int :=
  (runEventLog iters ty).1.map
    (fun r => Int.tdiv r.totalTime (iters.length : Int))

/-- The reported instance count for a type. -/
def reportedCount (iters : List (List TfEvent)) (ty : String) : Option Nat :=
  (runEventLog iters ty).1.map (fun r => r.count)

/-- Arithmetic mean of a list of rationals (0 on the empty list). -/
def meanQ (xs : List Rat) : Rat := xs.sum / (xs.length : Rat)

/-- Population variance, denominator N: the mathematical content of
gonum's stat.PopVariance over exact rationals in place of float64. -/
def popVarQ (xs : List Rat) : Rat :=
  (xs.map (fun x => (x - meanQ xs) ^ 2)).sum / (xs.length : Rat)

/-- gonum's stat.PopStdDev followed by the time.Duration(float64)
conversion: the square root of the population variance truncated to an
integer number of nanoseconds.  For a nonnegative real v,
trunc (sqrt v) = Nat.sqrt (floor v), which is the form used here. -/
def popStdDevDuration (xs : List Int) : Nat :=
  Nat.sqrt (Int.toNat (Rat.floor (popVarQ (xs.map (fun x => (x : Rat))))))

/-- The reported standard deviation for a type: PopStdDev of the pooled
resourceOverallData[ty]. -/
def reportedStdDev (iters : List (List TfEvent)) (ty : String) : Option Nat :=
  (runEventLog iters ty).1.map
    (fun _ => popStdDevDuration (runEventLog iters ty).2)

/-- The per-iteration per-type statistic: the truncated integer mean of
the type's address durations within one iteration. -/
def perIterMean (es : List TfEvent) (ty : String) : Int :=
  Int.tdiv (durationsOfType es ty).sum ((durationsOfType es ty).length : Int)

/-- A well-formed start/complete pair for one address. -/
def evStart (a ty : String) (t : Int) : TfEvent :=
  { eventType := "refresh_start", timestamp := t, addr := a,
    resourceType := ty }

/-- A refresh_complete event. -/
def evEnd (a ty : String) (t : Int) : TfEvent :=
  { eventType := "refresh_complete", timestamp := t, addr := a,
    resourceType := ty }

/-- The instance count the spec claims: the sum over all iterations of
the number of duration samples attributed to the type. -/
def sampleCountSum (iters : List (List TfEvent)) (ty : String) : Nat :=
  (iters.map (fun es => (measurementsOfType es ty).length)).sum

/-- The instance count the code actually reports: the sample count of
the first iteration in which the type is observed. -/
def firstObservedCount (iters : List (List TfEvent)) (ty : String) :
    Option Nat :=
  (iters.find? (fun es => !(measurementsOfType es ty).isEmpty)).map
    (fun es => (measurementsOfType es ty).length)

/-- Two iterations, each with one complete start/complete pair for the
same type. -/
def exTwoIters : List (List TfEvent) :=
  [[evStart "a.x" "t" 0, evEnd "a.x" "t" 6],
   [evStart "a.x" "t" 0, evEnd "a.x" "t" 10]]

/-- One iteration with a single pair of duration 5. -/
def exOneIter : List (List TfEvent) :=
  [[evStart "a.x" "t" 0, evEnd "a.x" "t" 5]]

/-- The per-type state produced by exOneIter. -/
def exOneIterState : RState :=
  { count := 1, totalTime := 5, minD := 5, maxD := 5,
    minId := "a.x", maxId := "a.x" }

/-- A complete iteration stream used by the unmatched-start witness. -/
def exPairedStream : List TfEvent :=
  [evStart "a.x" "t" 0, evEnd "a.x" "t" 5]

/-- A refresh_start event whose address never completes. -/
def exLoneStart : TfEvent := evStart "a.y" "t" 3

section StateGrouping

/-- One resource record of the parsed terraform state document
(TerraformState struct): a type tag, a mode tag distinguishing managed
resources from data lookups, and the instance list. -/
structure StateResource where
  rtype : String
  mode : String
  instances : List Unit
deriving DecidableEq, Repr

/-- The contribution of one record to resourceTypes[ty] in
eventLogRefreshBenchmark: data-mode records are skipped, others add
len(Instances) when their type matches. -/
def gEvent (ty : String) (r : StateResource) : Nat :=
  if r.mode = "data" then 0
  else if r.rtype = ty then r.instances.length else 0

/-- The contribution of one record to resourceTypes[ty] in
tempDirRefreshBenchmark: no mode filter. -/
def gTemp (ty : String) (r : StateResource) : Nat :=
  if r.rtype = ty then r.instances.length else 0

/-- resourceTypes[ty] as built by the eventLogRefreshBenchmark loop
(`if r.Mode == "data" then continue; resourceTypes[r.Type] += len`). -/
def eventLogResourceTypes (rs : List StateResource) (ty : String) : Nat :=
  rs.foldl (fun acc r =>
    if r.mode = "data" then acc
    else if r.rtype = ty then acc + r.instances.length else acc) 0

/-- resourceTypes[ty] as built by the tempDirRefreshBenchmark loop
(`resourceTypes[r.Type] += len`, no mode check). -/
def tempDirResourceTypes (rs : List StateResource) (ty : String) : Nat :=
  rs.foldl (fun acc r =>
    if r.rtype = ty then acc + r.instances.length else acc) 0

/-- A data-mode record used by the C7 witness. -/
def exDataRecord : StateResource :=
  { rtype := "aws_ami", mode := "data", instances := [(), ()] }

/-- A managed record used by the C7 witness. -/
def exManagedRecord : StateResource :=
  { rtype := "aws_ami", mode := "managed", instances := [()] }

end StateGrouping

section Ranking

/-- One row of report.Resources as consumed by the final sort:
TotalTime holds the per-type mean duration. -/
structure ResourceEntry where
  name : String
  count : Nat
  totalTime : Int
deriving DecidableEq, Repr

/-- The ranking key of the event-stream strategy:
int64(TotalTime) * int64(Count). -/
def costKey (e : ResourceEntry) : Int := e.totalTime * (e.count : Int)

/-- Non-increasing order in the cost key: the order established by
sort.Slice with comparator costKey i > costKey j. -/
def costGE (a b : ResourceEntry) : Prop := costKey b ≤ costKey a

/-- Non-increasing order in TotalTime alone: the order established by
the tempDir strategy's sort.Slice comparator TotalTime i > TotalTime j. -/
def timeGE (a b : ResourceEntry) : Prop := b.totalTime ≤ a.totalTime

instance : DecidableRel costGE := fun a b =>
  inferInstanceAs (Decidable (costKey b ≤ costKey a))

instance : DecidableRel timeGE := fun a b =>
  inferInstanceAs (Decidable (b.totalTime ≤ a.totalTime))

instance : IsTotal ResourceEntry costGE :=
  ⟨fun a b => le_total (costKey b) (costKey a)⟩

instance : IsTrans ResourceEntry costGE :=
  ⟨fun _ _ _ h1 h2 => le_trans h2 h1⟩

instance : IsTotal ResourceEntry timeGE :=
  ⟨fun a b => le_total b.totalTime a.totalTime⟩

instance : IsTrans ResourceEntry timeGE :=
  ⟨fun _ _ _ h1 h2 => le_trans h2 h1⟩

/-- The final ranking of eventLogRefreshBenchmark: sort.Slice by
strictly greater TotalTime*Count, determinized as a stable insertion
sort into non-increasing cost order (sort.Slice guarantees the order,
not stability). -/
def eventLogSortResources (rs : List ResourceEntry) : List ResourceEntry :=
  List.insertionSort costGE rs

/-- The final ranking of tempDirRefreshBenchmark: sort.Slice by strictly
greater TotalTime only. -/
def tempDirSortResources (rs : List ResourceEntry) : List ResourceEntry :=
  List.insertionSort timeGE rs

/-- A cheap type with few instances: cost 3 * 1 = 3, mean 3. -/
def entryFewSlow : ResourceEntry := { name := "alpha", count := 1, totalTime := 3 }

/-- A type with many instances: cost 2 * 10 = 20, mean 2. -/
def entryManyFast : ResourceEntry := { name := "beta", count := 10, totalTime := 2 }

/-- The C3 counterexample input. -/
def exEntries : List ResourceEntry := [entryFewSlow, entryManyFast]

end Ranking

section MeasureRefresh

/-- The observable outcome of measureRefresh: a duration, a propagated
refresh error, or the runtime panic of the unguarded int64 division. -/
inductive MeasureOutcome where
  | ok (d : Int)
  | refreshError
  | panicDivByZero
deriving DecidableEq, Repr

/-- The timed loop of measureRefresh: the k-th call of
measureRefreshOnce yields runs k (none modelling a failed refresh, which
the loop propagates immediately); each successful duration is added to
the running total. -/
def measureLoop (runs : Nat → Option Int) : Nat → Nat → Int → Option Int
  | _, 0, total => some total
  | k, n + 1, total =>
    match runs k with
    | none => none
    | some one => measureLoop runs (k + 1) n (total + one)

/-- measureRefresh over an abstract runner: the warm-up invocation
(index 0) is performed with its duration and error discarded; then
`iterations` timed invocations (indices 1, 2, ...) are accumulated, and
the total is divided by `iterations` with Go's int64 division, which
panics when `iterations` is 0 (no guard exists in the source). -/
def measureRefresh (runs : Nat → Option Int) (iterations : Nat) :
    MeasureOutcome :=
  match measureLoop runs 1 iterations 0 with
  | none => MeasureOutcome.refreshError
  | some total =>
    if iterations = 0 then MeasureOutcome.panicDivByZero
    else MeasureOutcome.ok (Int.tdiv total (iterations : Int))

/-- A concrete runner for the C4 and C10 witnesses: invocation i takes
10 * i nanoseconds. -/
def exRuns (i : Nat) : Int := 10 * (i : Int)

end MeasureRefresh

section VersionModel

/-- Modelled from the spec: the external go-version library's parsed
semantic version, as used for strategy gating and the version probe —
numeric segments (padded to at least three when parsed) plus an optional
prerelease tag (empty string when absent). -/
structure GoVer where
  segs : List Nat
  pre : String
deriving DecidableEq, Repr

/-- Modelled from the spec: lexicographic comparison of numeric version
segments, with missing trailing segments read as zero (so a list never
precedes its zero-padded extension). -/
def segsLT : List Nat → List Nat → Bool
  | [], b => b.any (fun y => decide (0 < y))
  | _ :: _, [] => false
  | x :: xs, y :: ys =>
    if x < y then true else if y < x then false else segsLT xs ys

/-- Modelled from the spec: the strict version order used by the gate's
LessThan — numeric segments first; on equal segments a prerelease
version precedes the release and two prerelease tags compare as strings
(a simplification of the library's per-field prerelease rules,
irrelevant to the gate's numeric threshold). -/
def verLT (a b : GoVer) : Bool :=
  if segsLT a.segs b.segs then true
  else if segsLT b.segs a.segs then false
  else if a.pre = b.pre then false
  else if b.pre = "" then true
  else if a.pre = "" then false
  else decide (a.pre < b.pre)

/-- Rendering of a parsed version, as the library's String(): segments
joined with dots, then the prerelease tag. -/
def verString (v : GoVer) : String :=
  String.intercalate "." (v.segs.map (fun n => toString n))
    ++ (if v.pre = "" then "" else "-" ++ v.pre)

/-- The constant v0.15.4 the gate compares against (version.NewVersion
on the literal always succeeds). -/
def v0_15_4 : GoVer := { segs := [0, 15, 4], pre := "" }

/-- The capability error of eventLogRefreshBenchmark, carrying the
detected version (the source interpolates the raw detected version
string; the model renders the parsed version). -/
def capabilityError (v : GoVer) : String :=
  "terraform version is too low to use event log measurement method. \nYour terraform version is "
    ++ verString v
    ++ ", event log measurement method requires at least v0.15.4.\nSet --event-log=false flag to use the temporary directory measurement method."

/-- Which timing strategy produced a report. -/
inductive Strategy where
  | eventLog
  | tempDir
deriving DecidableEq, Repr

/-- The benchmark report reduced to what the claims inspect: the
producing strategy and the ranked per-type resource list. -/
structure ReportModel where
  strategy : Strategy
  resources : List ResourceEntry
deriving DecidableEq, Repr

/-- Every resource type observed in some iteration's measurements, in
first-appearance order (the key set of the reports map). -/
def observedTypes (iters : List (List TfEvent)) : List String :=
  ((iters.map (fun es => (buildMeasurements es).map (fun p => p.1))).flatten).dedup

/-- The final per-type rows of the event-stream report. -/
def eventLogEntries (iters : List (List TfEvent)) : List ResourceEntry :=
  (observedTypes iters).filterMap (fun ty =>
    ((runEventLog iters ty).1).map (fun r =>
      { name := ty, count := r.count,
        totalTime := Int.tdiv r.totalTime (iters.length : Int) }))

/-- eventLogRefreshBenchmark reduced to the gate and the measurement
pipeline: the version gate runs before any iteration is executed; a
detected version below v0.15.4 returns the capability error; a missing
or unparsable detected version skips the gate and proceeds with the
event-stream measurement. -/
def eventLogRefreshBenchmark (tv : Option GoVer)
    (iters : List (List TfEvent)) : Except String ReportModel :=
  match tv with
  | some v =>
    if verLT v v0_15_4 then Except.error (capabilityError v)
    else Except.ok { strategy := Strategy.eventLog,
                     resources := eventLogSortResources (eventLogEntries iters) }
  | none => Except.ok { strategy := Strategy.eventLog,
                        resources := eventLogSortResources (eventLogEntries iters) }

/-- The strategy dispatch of RefreshBenchmark: cfg.EventLog selects the
event-stream path, otherwise the tempDir path runs on its own measured
entries. -/
def RefreshBenchmark (eventLog : Bool) (tv : Option GoVer)
    (iters : List (List TfEvent)) (tempEntries : List ResourceEntry) :
    Except String ReportModel :=
  if eventLog then eventLogRefreshBenchmark tv iters
  else Except.ok { strategy := Strategy.tempDir,
                   resources := tempDirSortResources tempEntries }

/-- A detected version below the threshold, for the C5 witness. -/
def exLowVer : GoVer := { segs := [0, 15, 3], pre := "" }

end VersionModel

section VersionProbe

/-- A character of the regex class [A-Za-z0-9.] used by the prerelease
part of simpleVersionRe. -/
def isPreChar (c : Char) : Bool := c.isAlphanum || c = '.'

/-- Decimal value of a digit run. -/
def digitsToNat (ds : List Char) : Nat :=
  ds.foldl (fun n c => n * 10 + (c.toNat - '0'.toNat)) 0

/-- Greedy match of the regex atom [0-9]+ at the head of the input. -/
def parseNumTok (cs : List Char) : Option (Nat × List Char) :=
  let p := cs.span (fun c => c.isDigit)
  if p.1.isEmpty then none else some (digitsToNat p.1, p.2)

/-- Greedy match of (?:\.[0-9]+)* — further dot-separated numeric
segments; the fuel argument bounds recursion by the input length. -/
def parseDotSegsAux : Nat → List Char → List Nat × List Char
  | 0, cs => ([], cs)
  | fuel + 1, cs =>
    match cs with
    | '.' :: cs2 =>
      match parseNumTok cs2 with
      | some (n, rest) =>
        let pr := parseDotSegsAux fuel rest
        (n :: pr.1, pr.2)
      | none => ([], cs)
    | _ => ([], cs)

/-- Greedy match of (?:\.[0-9]+)*. -/
def parseDotSegs (cs : List Char) : List Nat × List Char :=
  parseDotSegsAux cs.length cs

/-- Greedy match of the optional prerelease (?:-[A-Za-z0-9.]+)?. -/
def parsePre (cs : List Char) : String × List Char :=
  match cs with
  | '-' :: cs2 =>
    let p := cs2.span isPreChar
    if p.1.isEmpty then ("", cs) else (String.mk p.1, p.2)
  | _ => ("", cs)

/-- Modelled from the spec: go-version pads parsed segment lists to at
least three numeric segments. -/
def padSegs (l : List Nat) : List Nat :=
  l ++ List.replicate (3 - l.length) 0

/-- Match of v? followed by simpleVersionRe's capture at the head of
the input, returning the parsed (go-version) value and the rest: this is
the shared tail of both regular expressions, combined with the
version.NewVersion call on the captured text (the capture grammar is a
sublanguage of what NewVersion accepts, so that call cannot fail). -/
def parseVersionAfter (cs : List Char) : Option (GoVer × List Char) :=
  let cs2 :=
    match cs with
    | 'v' :: r => r
    | _ => cs
  match parseNumTok cs2 with
  | none => none
  | some (n, rest) =>
    let ds := parseDotSegs rest
    let pr := parsePre ds.2
    some ({ segs := padSegs (n :: ds.1), pre := pr.1 }, pr.2)

/-- strings.TrimSpace. -/
def trimString (s : String) : String :=
  String.mk
    (((s.toList.dropWhile Char.isWhitespace).reverse.dropWhile
        Char.isWhitespace).reverse)

/-- versionOutputRe: the anchored match ^Terraform v?(version) against
the trimmed output; none models an empty FindStringSubmatch result. -/
def parseTerraformBanner (cs : List Char) : Option GoVer :=
  if cs.take 10 = "Terraform ".toList
  then (parseVersionAfter (cs.drop 10)).map (fun p => p.1)
  else none

/-- One attempted match of providerVersionOutputRe at the current
position: the literal newline, plus sign and space, the word provider,
one of dot or space, a nonempty run of non-whitespace as the name, a
space, and v? followed by the version capture. -/
def tryProviderAt (cs : List Char) : Option (String × GoVer × List Char) :=
  match cs with
  | '\n' :: '+' :: ' ' :: rest =>
    if rest.take 8 = "provider".toList then
      match rest.drop 8 with
      | sep :: rest2 =>
        if sep = '.' || sep = ' ' then
          let nm := rest2.span (fun c => !c.isWhitespace)
          if nm.1.isEmpty then none
          else
            match nm.2 with
            | ' ' :: rest3 =>
              match parseVersionAfter rest3 with
              | some (v, rest4) => some (String.mk nm.1, v, rest4)
              | none => none
            | _ => none
        else none
      | [] => none
    else none
  | _ => none

/-- FindAllStringSubmatch for providerVersionOutputRe: scan every
position left to right, resuming after each match; the fuel argument
bounds recursion by the input length. -/
def scanProvidersAux : Nat → List Char → List (String × GoVer)
  | 0, _ => []
  | fuel + 1, cs =>
    match tryProviderAt cs with
    | some (nm, v, rest) => (nm, v) :: scanProvidersAux fuel rest
    | none =>
      match cs with
      | [] => []
      | _ :: cs2 => scanProvidersAux fuel cs2

/-- All provider matches of the trimmed output. -/
def scanProviders (cs : List Char) : List (String × GoVer) :=
  scanProvidersAux cs.length cs

/-- Go map assignment for the provider version map provV[name] = v. -/
def upsertProv (m : List (String × GoVer)) (k : String) (v : GoVer) :
    List (String × GoVer) :=
  match m with
  | [] => [(k, v)]
  | (k1, v1) :: rest =>
    if k1 = k then (k, v) :: rest else (k1, v1) :: upsertProv rest k v

/-- The provider map built from the match list in order. -/
def provMap (l : List (String × GoVer)) : List (String × GoVer) :=
  l.foldl (fun m p => upsertProv m p.1 p.2) []

/-- parseOldVersionOutput: trim the output, require the anchored
version-banner match (otherwise the unexpected-number-of-matches error
with the zero count of a failed FindStringSubmatch), then collect every
provider line match. -/
def parseOldVersionOutput (stdout : String) :
    Except String (GoVer × List (String × GoVer)) :=
  let t := trimString stdout
  match parseTerraformBanner t.toList with
  | none =>
    Except.error ("unexpected number of version matches 0 for " ++ t)
  | some v => Except.ok (v, provMap (scanProviders t.toList))

/-- The TerraformVersion struct: the structured version document's
terraform_version string and provider_selections map. -/
structure TerraformVersion where
  terraformVersion : String
  providerSelections : List (String × String)
deriving DecidableEq, Repr

/-- The output of the version command as consumed by the probe:
outputs that unmarshal as the structured JSON version document are
represented already parsed (the unmarshaller is external); anything
else is raw text for the fallback parser. -/
inductive VersionCmdOutput where
  | jsonDoc (tv : TerraformVersion)
  | rawText (s : String)
deriving DecidableEq, Repr

/-- terraformVersion: the structured path returns the unmarshalled
struct unchanged; the fallback path parses the free-text banner and
normalizes every parsed version with the library's String(). -/
def terraformVersionProbe (out : VersionCmdOutput) :
    Except String TerraformVersion :=
  match out with
  | VersionCmdOutput.jsonDoc tv => Except.ok tv
  | VersionCmdOutput.rawText s =>
    match parseOldVersionOutput s with
    | Except.error e => Except.error e
    | Except.ok (v, provs) =>
      Except.ok { terraformVersion := verString v,
                  providerSelections := provs.map (fun p => (p.1, verString p.2)) }

end VersionProbe

section PipelineLemmas

theorem freshRState_totalTime (n : Nat) : (freshRState n).totalTime = 0 := rfl

theorem freshRState_count (n : Nat) : (freshRState n).count = n := rfl

theorem minUpdate_count (r : RState) (m : ResourceMeasurement) :
    (minUpdate r m).count = r.count := by
  unfold minUpdate; split <;> rfl

theorem maxUpdate_count (r : RState) (m : ResourceMeasurement) :
    (maxUpdate r m).count = r.count := by
  unfold maxUpdate; split <;> rfl

theorem minUpdate_totalTime (r : RState) (m : ResourceMeasurement) :
    (minUpdate r m).totalTime = r.totalTime := by
  unfold minUpdate; split <;> rfl

theorem maxUpdate_totalTime (r : RState) (m : ResourceMeasurement) :
    (maxUpdate r m).totalTime = r.totalTime := by
  unfold maxUpdate; split <;> rfl

theorem foldl_measStep_spec (ms : List ResourceMeasurement) :
    ∀ (r0 : RState) (t : Int) (ov : List Int),
      (ms.foldl measStep (r0, t, ov)).1.count = r0.count ∧
      (ms.foldl measStep (r0, t, ov)).1.totalTime = r0.totalTime ∧
      (ms.foldl measStep (r0, t, ov)).2.1
        = t + (ms.map (fun m => m.d)).sum ∧
      (ms.foldl measStep (r0, t, ov)).2.2 = ov ++ ms.map (fun m => m.d) := by
  induction ms with
  | nil => intro r0 t ov; exact ⟨rfl, rfl, by simp, by simp⟩
  | cons m ms ih =>
    intro r0 t ov
    simp only [List.foldl_cons, measStep]
    obtain ⟨h1, h2, h3, h4⟩ :=
      ih (maxUpdate (minUpdate r0 m) m) (t + m.d) (ov ++ [m.d])
    refine ⟨?_, ?_, ?_, ?_⟩
    · rw [h1, maxUpdate_count, minUpdate_count]
    · rw [h2, maxUpdate_totalTime, minUpdate_totalTime]
    · rw [h3]; simp [add_assoc]
    · rw [h4]; simp

theorem stepIteration_empty (ty : String) (es : List TfEvent)
    (s : Option RState × List Int) (h : measurementsOfType es ty = []) :
    stepIteration ty s es = s := by
  simp [stepIteration, h]

theorem stepIteration_eq_of_meas_eq (ty : String)
    (s : Option RState × List Int) {es1 es2 : List TfEvent}
    (h : measurementsOfType es1 ty = measurementsOfType es2 ty) :
    stepIteration ty s es1 = stepIteration ty s es2 := by
  unfold stepIteration; rw [h]

theorem stepIteration_some (ty : String) (es : List TfEvent) (r0 : RState)
    (ov : List Int) (h : measurementsOfType es ty ≠ []) :
    ∃ r1, stepIteration ty (some r0, ov) es
        = (some r1, ov ++ durationsOfType es ty) ∧
      r1.totalTime = r0.totalTime + perIterMean es ty ∧
      r1.count = r0.count := by
  cases hms : measurementsOfType es ty with
  | nil => exact absurd hms h
  | cons m ms =>
    obtain ⟨h1, h2, h3, h4⟩ := foldl_measStep_spec (m :: ms) r0 0 ov
    simp only [stepIteration, hms]
    refine ⟨{ (List.foldl measStep (r0, 0, ov) (m :: ms)).1 with
        totalTime := (List.foldl measStep (r0, 0, ov) (m :: ms)).1.totalTime
          + Int.tdiv (List.foldl measStep (r0, 0, ov) (m :: ms)).2.1
              ((m :: ms).length : Int) }, ?_, ?_, ?_⟩
    · rw [h4]
      simp only [durationsOfType, hms]
    · simp only [h2, h3, perIterMean, durationsOfType, hms, zero_add,
        List.length_map]
    · simp only [h1]

theorem stepIteration_fresh (ty : String) (es : List TfEvent)
    (ov : List Int) (h : measurementsOfType es ty ≠ []) :
    ∃ r1, stepIteration ty (none, ov) es
        = (some r1, ov ++ durationsOfType es ty) ∧
      r1.totalTime = perIterMean es ty ∧
      r1.count = (measurementsOfType es ty).length := by
  cases hms : measurementsOfType es ty with
  | nil => exact absurd hms h
  | cons m ms =>
    obtain ⟨h1, h2, h3, h4⟩ :=
      foldl_measStep_spec (m :: ms) (freshRState (m :: ms).length) 0 ov
    simp only [stepIteration, hms]
    refine ⟨{ (List.foldl measStep (freshRState (m :: ms).length, 0, ov)
          (m :: ms)).1 with
        totalTime := (List.foldl measStep (freshRState (m :: ms).length, 0, ov)
            (m :: ms)).1.totalTime
          + Int.tdiv (List.foldl measStep (freshRState (m :: ms).length, 0, ov)
              (m :: ms)).2.1 ((m :: ms).length : Int) }, ?_, ?_, ?_⟩
    · rw [h4]
      simp only [durationsOfType, hms]
    · simp only [h2, h3, perIterMean, durationsOfType, hms, zero_add,
        List.length_map, freshRState_totalTime]
    · simp only [h1, freshRState_count]

theorem stepIteration_overall (ty : String)
    (s : Option RState × List Int) (es : List TfEvent) :
    (stepIteration ty s es).2 = s.2 ++ durationsOfType es ty := by
  obtain ⟨s1, ov⟩ := s
  cases hms : measurementsOfType es ty with
  | nil =>
    simp [stepIteration, hms, durationsOfType]
  | cons m ms =>
    cases s1 with
    | none =>
      obtain ⟨_, _, _, h4⟩ :=
        foldl_measStep_spec (m :: ms) (freshRState (m :: ms).length) 0 ov
      simp only [stepIteration, hms, h4, durationsOfType]
    | some r =>
      obtain ⟨_, _, _, h4⟩ := foldl_measStep_spec (m :: ms) r 0 ov
      simp only [stepIteration, hms, h4, durationsOfType]

theorem runEventLog_overall (ty : String) :
    ∀ (iters : List (List TfEvent)) (s : Option RState × List Int),
      (iters.foldl (stepIteration ty) s).2
        = s.2 ++ (iters.map (fun es => durationsOfType es ty)).flatten := by
  intro iters
  induction iters with
  | nil => intro s; simp
  | cons es rest ih =>
    intro s
    simp only [List.foldl_cons, List.map_cons, List.flatten_cons]
    rw [ih, stepIteration_overall, List.append_assoc]

theorem foldl_stepIteration_some (ty : String) :
    ∀ (iters : List (List TfEvent)) (r0 : RState) (ov : List Int),
      ∃ r1 ov1, iters.foldl (stepIteration ty) (some r0, ov) = (some r1, ov1) ∧
        r1.count = r0.count ∧
        ((∀ es ∈ iters, measurementsOfType es ty ≠ []) →
          r1.totalTime
            = r0.totalTime + (iters.map (fun es => perIterMean es ty)).sum) := by
  intro iters
  induction iters with
  | nil =>
    intro r0 ov
    exact ⟨r0, ov, rfl, rfl, fun _ => by simp⟩
  | cons es rest ih =>
    intro r0 ov
    by_cases hms : measurementsOfType es ty = []
    · obtain ⟨r1, ov1, heq, hcnt, htot⟩ := ih r0 ov
      refine ⟨r1, ov1, ?_, hcnt, ?_⟩
      · rw [List.foldl_cons, stepIteration_empty ty es _ hms]; exact heq
      · intro hall
        exact absurd hms (hall es (List.mem_cons_self es rest))
    · obtain ⟨r2, hstep, htot2, hcnt2⟩ := stepIteration_some ty es r0 ov hms
      obtain ⟨r1, ov1, heq, hcnt, htot⟩ := ih r2 (ov ++ durationsOfType es ty)
      refine ⟨r1, ov1, ?_, ?_, ?_⟩
      · rw [List.foldl_cons, hstep]; exact heq
      · rw [hcnt, hcnt2]
      · intro hall
        rw [htot (fun es2 h2 => hall es2 (List.mem_cons_of_mem es h2)),
          htot2, List.map_cons, List.sum_cons, add_assoc]

end PipelineLemmas

section ClaimC1

/-- C1: in the event-stream strategy, for every resource type observed in
every iteration, the reported final mean is the two-level average: the
per-iteration statistic is the (truncated integer) mean of that type's
address durations (complete timestamp minus start timestamp), the
per-type total accumulates these per-iteration means, and after all
iterations the total is divided by the iteration count. -/
theorem eventStream_mean_is_two_level_average
    (iters : List (List TfEvent)) (ty : String)
    (hne : iters ≠ [])
    (hall : ∀ es ∈ iters, measurementsOfType es ty ≠ []) :
    reportedMean iters ty
      = some (Int.tdiv ((iters.map (fun es => perIterMean es ty)).sum)
          (iters.length : Int)) := by
  cases iters with
  | nil => exact absurd rfl hne
  | cons es rest =>
    obtain ⟨r2, hstep, htot2, _⟩ :=
      stepIteration_fresh ty es [] (hall es (List.mem_cons_self es rest))
    obtain ⟨r1, ov1, heq, _, htot⟩ :=
      foldl_stepIteration_some ty rest r2 ([] ++ durationsOfType es ty)
    have hrun : runEventLog (es :: rest) ty = (some r1, ov1) := by
      rw [runEventLog, List.foldl_cons, hstep]; exact heq
    have htt : r1.totalTime
        = perIterMean es ty + (rest.map (fun es => perIterMean es ty)).sum := by
      rw [htot (fun es2 h2 => hall es2 (List.mem_cons_of_mem es h2)), htot2]
    rw [reportedMean, hrun]
    simp only [Option.map_some', htt, List.map_cons, List.sum_cons]

/-- Witness for C1 at a concrete two-iteration input. -/
theorem eventStream_mean_is_two_level_average_witness :
    reportedMean exTwoIters "t"
      = some (Int.tdiv ((exTwoIters.map (fun es => perIterMean es "t")).sum)
          (exTwoIters.length : Int)) :=
  eventStream_mean_is_two_level_average exTwoIters "t" (by decide) (by decide)

end ClaimC1

section ClaimC2

/-- C2: the reported standard deviation of a type is the population
standard deviation (denominator N) of the flattened multiset of all
address-level durations of that type pooled across all iterations: the
pooled data list the code accumulates equals that flattened multiset,
and the reported value applies PopStdDev to it. -/
theorem eventStream_stddev_is_pooled_population
    (iters : List (List TfEvent)) (ty : String) :
    (runEventLog iters ty).2
      = (iters.map (fun es => durationsOfType es ty)).flatten ∧
    (∀ r, (runEventLog iters ty).1 = some r →
      reportedStdDev iters ty
        = some (popStdDevDuration
            ((iters.map (fun es => durationsOfType es ty)).flatten))) := by
  have hov : (runEventLog iters ty).2
      = (iters.map (fun es => durationsOfType es ty)).flatten := by
    have h := runEventLog_overall ty iters (none, [])
    simpa [runEventLog] using h
  refine ⟨hov, ?_⟩
  intro r hr
  rw [reportedStdDev, hr, hov]
  simp only [Option.map_some']

/-- Witness for C2 at a concrete one-iteration input. -/
theorem eventStream_stddev_is_pooled_population_witness :
    reportedStdDev exOneIter "t"
      = some (popStdDevDuration
          ((exOneIter.map (fun es => durationsOfType es "t")).flatten)) :=
  (eventStream_stddev_is_pooled_population exOneIter "t").2
    exOneIterState (by decide)

end ClaimC2

section ClaimC8

/-- C8 counterexample: with two iterations each contributing one sample
of type t, the reported instance count is 1, not the claimed sum 2. -/
theorem reportedCount_ne_sampleCountSum :
    reportedCount exTwoIters "t" ≠ some (sampleCountSum exTwoIters "t") := by
  decide

/-- C8 amended: the reported instance count of a type equals the number
of duration samples of that type in the first iteration in which the
type was observed (not the sum across iterations). -/
theorem reportedCount_eq_firstObservedCount
    (iters : List (List TfEvent)) (ty : String) :
    reportedCount iters ty = firstObservedCount iters ty := by
  suffices h : ∀ (l : List (List TfEvent)) (ov : List Int),
      ((l.foldl (stepIteration ty) (none, ov)).1).map (fun r => r.count)
        = firstObservedCount l ty by
    exact h iters []
  intro l
  induction l with
  | nil => intro ov; rfl
  | cons es rest ih =>
    intro ov
    by_cases hms : measurementsOfType es ty = []
    · rw [List.foldl_cons, stepIteration_empty ty es _ hms, ih]
      rw [firstObservedCount, firstObservedCount]
      rw [List.find?_cons_of_neg]
      simp [hms]
    · obtain ⟨r2, hstep, _, hcnt2⟩ := stepIteration_fresh ty es ov hms
      obtain ⟨r1, ov1, heq, hcnt, _⟩ :=
        foldl_stepIteration_some ty rest r2 (ov ++ durationsOfType es ty)
      rw [List.foldl_cons, hstep, heq]
      rw [firstObservedCount, List.find?_cons_of_pos]
      · simp only [Option.map_some', hcnt, hcnt2]
      · simp [List.isEmpty_iff, hms]

end ClaimC8

section ClaimC6

theorem alookup_upsert_ne (m : List (String × TfEvent)) (k : String)
    (v : TfEvent) (a : String) (h : k ≠ a) :
    alookup (upsert m k v) a = alookup m a := by
  induction m with
  | nil => simp [upsert, alookup, h]
  | cons p rest ih =>
    obtain ⟨k1, v1⟩ := p
    by_cases hk : k1 = k
    · subst hk
      simp [upsert, alookup, h]
    · simp only [upsert, if_neg hk]
      by_cases ha : k1 = a
      · simp [alookup, ha]
      · simp [alookup, ha, ih]

theorem ends_lookup_none (a : String) :
    ∀ (es : List TfEvent) (m : List (String × TfEvent)),
      alookup m a = none →
      (∀ e ∈ es, e.eventType = "refresh_complete" → e.addr ≠ a) →
      alookup (es.foldl endStep m) a = none := by
  intro es
  induction es with
  | nil => intro m hm _; exact hm
  | cons e rest ih =>
    intro m hm hno
    rw [List.foldl_cons]
    refine ih (endStep m e) ?_ (fun e2 h2 hc => hno e2 (List.mem_cons_of_mem e h2) hc)
    by_cases hc : e.eventType = "refresh_complete"
    · have hne : e.addr ≠ a := hno e (List.mem_cons_self e rest) hc
      rw [endStep, if_pos hc, alookup_upsert_ne _ _ _ _ hne]
      exact hm
    · rw [endStep, if_neg hc]
      exact hm

theorem buildStarts_append_start (es : List TfEvent) (e : TfEvent)
    (h : e.eventType = "refresh_start") :
    buildStarts (es ++ [e]) = upsert (buildStarts es) e.addr e := by
  simp [buildStarts, List.foldl_append, startStep, h]

theorem buildEnds_append_start (es : List TfEvent) (e : TfEvent)
    (h : e.eventType = "refresh_start") :
    buildEnds (es ++ [e]) = buildEnds es := by
  have hne : ¬ e.eventType = "refresh_complete" := by
    rw [h]; decide
  simp [buildEnds, List.foldl_append, endStep, hne]

theorem filterMap_measPair_upsert (E : List (String × TfEvent)) (k : String)
    (v : TfEvent) (hk : alookup E k = none) :
    ∀ S : List (String × TfEvent),
      (upsert S k v).filterMap (measPair E) = S.filterMap (measPair E) := by
  intro S
  induction S with
  | nil => simp [upsert, List.filterMap, measPair, hk]
  | cons p rest ih =>
    obtain ⟨k1, v1⟩ := p
    by_cases h1 : k1 = k
    · subst h1
      have hv : measPair E (k1, v) = none := by simp [measPair, hk]
      have hv1 : measPair E (k1, v1) = none := by simp [measPair, hk]
      simp [upsert, List.filterMap_cons, hv, hv1]
    · simp only [upsert, if_neg h1, List.filterMap_cons, ih]

/-- C6: an address with a refresh_start event but no matching
refresh_complete event by stream end contributes zero duration samples:
the measurements of the iteration are unchanged by such an event, and
consequently every per-type statistic of the whole run (mean, pooled
standard-deviation population, min/max and their owning addresses) is
unchanged. -/
theorem unmatched_start_contributes_nothing
    (es : List TfEvent) (e : TfEvent) (ty : String)
    (iters1 iters2 : List (List TfEvent))
    (hstart : e.eventType = "refresh_start")
    (hnoend : ∀ e2 ∈ es, e2.eventType = "refresh_complete" → e2.addr ≠ e.addr) :
    buildMeasurements (es ++ [e]) = buildMeasurements es ∧
    runEventLog (iters1 ++ (es ++ [e]) :: iters2) ty
      = runEventLog (iters1 ++ es :: iters2) ty := by
  have hk : alookup (buildEnds es) e.addr = none :=
    ends_lookup_none e.addr es [] rfl hnoend
  have hmeas : buildMeasurements (es ++ [e]) = buildMeasurements es := by
    rw [buildMeasurements, buildMeasurements,
      buildStarts_append_start es e hstart, buildEnds_append_start es e hstart,
      filterMap_measPair_upsert _ _ _ hk]
  refine ⟨hmeas, ?_⟩
  have hstep : ∀ s, stepIteration ty s (es ++ [e]) = stepIteration ty s es := by
    intro s
    apply stepIteration_eq_of_meas_eq
    rw [measurementsOfType, measurementsOfType, hmeas]
  rw [runEventLog, runEventLog, List.foldl_append, List.foldl_append,
    List.foldl_cons, List.foldl_cons, hstep]

/-- Witness for C6: a complete pair plus one unmatched start. -/
theorem unmatched_start_contributes_nothing_witness :
    buildMeasurements (exPairedStream ++ [exLoneStart])
        = buildMeasurements exPairedStream ∧
    runEventLog ([] ++ (exPairedStream ++ [exLoneStart]) :: []) "t"
        = runEventLog ([] ++ exPairedStream :: []) "t" :=
  unmatched_start_contributes_nothing exPairedStream exLoneStart "t" [] []
    (by decide) (by decide)

end ClaimC6

section ClaimC7

theorem eventLog_foldl_acc (ty : String) :
    ∀ (rs : List StateResource) (acc : Nat),
      rs.foldl (fun acc r =>
          if r.mode = "data" then acc
          else if r.rtype = ty then acc + r.instances.length else acc) acc
        = acc + (rs.map (gEvent ty)).sum := by
  intro rs
  induction rs with
  | nil => intro acc; simp
  | cons r rest ih =>
    intro acc
    rw [List.foldl_cons, List.map_cons, List.sum_cons]
    by_cases hd : r.mode = "data"
    · simp only [hd, if_pos rfl, ih, gEvent, if_true]
      simp
    · by_cases ht : r.rtype = ty
      · simp only [if_neg hd, ht, if_pos rfl, ih, gEvent]
        simp [hd, Nat.add_assoc]
      · simp only [if_neg hd, if_neg ht, ih, gEvent]
        simp [hd, ht]

theorem tempDir_foldl_acc (ty : String) :
    ∀ (rs : List StateResource) (acc : Nat),
      rs.foldl (fun acc r =>
          if r.rtype = ty then acc + r.instances.length else acc) acc
        = acc + (rs.map (gTemp ty)).sum := by
  intro rs
  induction rs with
  | nil => intro acc; simp
  | cons r rest ih =>
    intro acc
    rw [List.foldl_cons, List.map_cons, List.sum_cons]
    by_cases ht : r.rtype = ty
    · simp only [ht, if_pos rfl, ih, gTemp]
      simp [Nat.add_assoc]
    · simp only [if_neg ht, ih, gTemp]
      simp [ht]

/-- C7: a data-mode record contributes nothing to any per-type count of
the event-stream grouping, wherever it sits in the state document; the
isolation strategy's grouping applies no mode filter and counts the same
record's instances whenever its type matches. -/
theorem dataMode_filtered_only_in_eventStream
    (pre post : List StateResource) (r : StateResource) (ty : String)
    (hd : r.mode = "data") :
    eventLogResourceTypes (pre ++ r :: post) ty
      = eventLogResourceTypes (pre ++ post) ty ∧
    tempDirResourceTypes (pre ++ r :: post) ty
      = tempDirResourceTypes (pre ++ post) ty
        + (if r.rtype = ty then r.instances.length else 0) := by
  constructor
  · rw [eventLogResourceTypes, eventLogResourceTypes,
      eventLog_foldl_acc, eventLog_foldl_acc]
    simp [gEvent, hd]
  · rw [tempDirResourceTypes, tempDirResourceTypes,
      tempDir_foldl_acc, tempDir_foldl_acc]
    simp only [List.map_append, List.map_cons, List.sum_append, List.sum_cons]
    rw [gTemp]
    omega

/-- Witness for C7 with a concrete data record between two managed
records. -/
theorem dataMode_filtered_only_in_eventStream_witness :
    eventLogResourceTypes ([exManagedRecord] ++ exDataRecord :: [exManagedRecord]) "aws_ami"
      = eventLogResourceTypes ([exManagedRecord] ++ [exManagedRecord]) "aws_ami" ∧
    tempDirResourceTypes ([exManagedRecord] ++ exDataRecord :: [exManagedRecord]) "aws_ami"
      = tempDirResourceTypes ([exManagedRecord] ++ [exManagedRecord]) "aws_ami"
        + (if exDataRecord.rtype = "aws_ami" then exDataRecord.instances.length else 0) :=
  dataMode_filtered_only_in_eventStream [exManagedRecord] [exManagedRecord]
    exDataRecord "aws_ami" (by decide)

end ClaimC7

section ClaimC3

/-- C3 counterexample: the isolation strategy's report is sorted by raw
mean only; on two entries with costs 3*1 = 3 and 2*10 = 20 it places the
cost-3 entry first, so the list is not sorted by non-increasing
mean times count. -/
theorem tempDirSort_not_sorted_by_cost :
    ¬ List.Pairwise costGE (tempDirSortResources exEntries) := by
  decide

/-- C3 amended: both strategies return a permutation of their input;
the event-stream ranking is sorted by non-increasing TotalTime*Count,
while the isolation ranking is sorted by non-increasing TotalTime only
(order among equal keys is implementation-defined in the source's
unstable sort.Slice and determinized here). -/
theorem ranking_sorted_permutation (rs : List ResourceEntry) :
    (eventLogSortResources rs).Perm rs ∧
    List.Pairwise costGE (eventLogSortResources rs) ∧
    (tempDirSortResources rs).Perm rs ∧
    List.Pairwise timeGE (tempDirSortResources rs) :=
  ⟨List.perm_insertionSort costGE rs,
   List.sorted_insertionSort costGE rs,
   List.perm_insertionSort timeGE rs,
   List.sorted_insertionSort timeGE rs⟩

end ClaimC3

section ClaimC4

theorem measureLoop_ok (ds : Nat → Int) :
    ∀ (n k : Nat) (t : Int),
      measureLoop (fun i => some (ds i)) k n t
        = some (t + ((List.range n).map (fun i => ds (k + i))).sum) := by
  intro n
  induction n with
  | zero => intro k t; simp [measureLoop]
  | succ n ih =>
    intro k t
    have hred : measureLoop (fun i => some (ds i)) k (n + 1) t
        = measureLoop (fun i => some (ds i)) (k + 1) n (t + ds k) := rfl
    rw [hred, ih (k + 1) (t + ds k)]
    have hlist : (List.range (n + 1)).map (fun i => ds (k + i))
        = ds k :: (List.range n).map (fun i => ds (k + 1 + i)) := by
      rw [List.range_succ_eq_map]
      simp only [List.map_cons, Nat.add_zero, List.map_map, Function.comp_def]
      have harg : (fun x : Nat => ds (k + x.succ)) = fun i : Nat => ds (k + 1 + i) := by
        funext x
        congr 1
        omega
      rw [harg]
    rw [hlist, List.sum_cons, add_assoc]

theorem measureRefresh_all_ok (ds : Nat → Int) (iterations : Nat)
    (h : 1 ≤ iterations) :
    measureRefresh (fun i => some (ds i)) iterations
      = MeasureOutcome.ok
          (Int.tdiv (((List.range iterations).map (fun i => ds (1 + i))).sum)
            (iterations : Int)) := by
  have h0 : ¬ iterations = 0 := by omega
  rw [measureRefresh, measureLoop_ok]
  simp [h0]

/-- C4: measureRefresh discards the extra initial (warm-up) invocation:
on a runner whose invocations all succeed, the result is the truncated
integer mean of the durations of invocations 1..iterations only, and
with iterations = 1 it is exactly the second invocation's duration. -/
theorem measureRefresh_discards_warmup (ds : Nat → Int) (iterations : Nat)
    (h : 1 ≤ iterations) :
    measureRefresh (fun i => some (ds i)) iterations
      = MeasureOutcome.ok
          (Int.tdiv (((List.range iterations).map (fun i => ds (1 + i))).sum)
            (iterations : Int))
    ∧ measureRefresh (fun i => some (ds i)) 1 = MeasureOutcome.ok (ds 1) := by
  refine ⟨measureRefresh_all_ok ds iterations h, ?_⟩
  rw [measureRefresh_all_ok ds 1 (le_refl 1)]
  simp [List.range_succ]

/-- Witness for C4 at a concrete runner and iterations = 2. -/
theorem measureRefresh_discards_warmup_witness :
    measureRefresh (fun i => some (exRuns i)) 2
      = MeasureOutcome.ok
          (Int.tdiv (((List.range 2).map (fun i => exRuns (1 + i))).sum)
            ((2 : Nat) : Int))
    ∧ measureRefresh (fun i => some (exRuns i)) 1 = MeasureOutcome.ok (exRuns 1) :=
  measureRefresh_discards_warmup exRuns 2 (by decide)

end ClaimC4

section ClaimC10

/-- C10: measureRefresh divides the accumulated total by the iterations
argument with no guard: every call with iterations = 0 reaches the
division by zero regardless of the runner, while with iterations ≥ 1
and successful refreshes it returns a defined duration. -/
theorem measureRefresh_unguarded_division :
    (∀ runs : Nat → Option Int,
      measureRefresh runs 0 = MeasureOutcome.panicDivByZero)
    ∧ (∀ (ds : Nat → Int) (iterations : Nat), 1 ≤ iterations →
        measureRefresh (fun i => some (ds i)) iterations
          = MeasureOutcome.ok
              (Int.tdiv
                (((List.range iterations).map (fun i => ds (1 + i))).sum)
                (iterations : Int))) :=
  ⟨fun _ => rfl, fun ds iterations h => measureRefresh_all_ok ds iterations h⟩

/-- Witness for C10: the zero-iterations call panics for a concrete
runner, and a one-iteration call returns a duration. -/
theorem measureRefresh_unguarded_division_witness :
    measureRefresh (fun _ => some 42) 0 = MeasureOutcome.panicDivByZero
    ∧ measureRefresh (fun i => some (exRuns i)) 1
        = MeasureOutcome.ok
            (Int.tdiv (((List.range 1).map (fun i => exRuns (1 + i))).sum)
              ((1 : Nat) : Int)) :=
  ⟨measureRefresh_unguarded_division.1 (fun _ => some 42),
   measureRefresh_unguarded_division.2 exRuns 1 (by decide)⟩

end ClaimC10

section ClaimC5

/-- C5: with the event-stream strategy selected and a detected version
below v0.15.4, the benchmark returns the capability error (whose text
suggests the --event-log=false alternative) for every possible event
stream — so no measurement influences the result; and for every
detected-version input, including a failed detection, any successful
event-stream-selected run is produced by the event-stream strategy,
never by silently falling back to the tempDir strategy. -/
theorem eventStream_version_gate (v : GoVer) (hv : verLT v v0_15_4 = true) :
    (∀ (iters : List (List TfEvent)) (tempEntries : List ResourceEntry),
      RefreshBenchmark true (some v) iters tempEntries
        = Except.error (capabilityError v))
    ∧ (∀ (tv : Option GoVer) (iters : List (List TfEvent))
        (tempEntries : List ResourceEntry) (rep : ReportModel),
        RefreshBenchmark true tv iters tempEntries = Except.ok rep →
          rep.strategy = Strategy.eventLog) := by
  constructor
  · intro iters te
    simp [RefreshBenchmark, eventLogRefreshBenchmark, hv]
  · intro tv iters te rep h
    cases tv with
    | none =>
      simp only [RefreshBenchmark, eventLogRefreshBenchmark, if_true,
        Except.ok.injEq] at h
      subst h
      rfl
    | some v2 =>
      by_cases hlt : verLT v2 v0_15_4
      · simp [RefreshBenchmark, eventLogRefreshBenchmark, hlt] at h
      · simp only [RefreshBenchmark, eventLogRefreshBenchmark, if_true,
          hlt, if_false, Bool.false_eq_true, Except.ok.injEq] at h
        subst h
        rfl

/-- Witness for C5 at the concrete version v0.15.3. -/
theorem eventStream_version_gate_witness :
    RefreshBenchmark true (some exLowVer) [] []
      = Except.error (capabilityError exLowVer) :=
  (eventStream_version_gate exLowVer (by decide)).1 [] []

end ClaimC5

section ClaimC9

/-- C9: the version probe returns the exact struct on structured JSON
input; on the free-text banner it falls back to the regex parser and
returns tool version 0.12.5 with provider map aws to 2.3.0, both as
normalized version strings; and output matching neither document shape
is an error. -/
theorem versionProbe_paths :
    (∀ tv : TerraformVersion,
      terraformVersionProbe (VersionCmdOutput.jsonDoc tv) = Except.ok tv)
    ∧ terraformVersionProbe
        (VersionCmdOutput.rawText "Terraform v0.12.5\n+ provider.aws v2.3.0\n")
        = Except.ok { terraformVersion := "0.12.5",
                      providerSelections := [("aws", "2.3.0")] }
    ∧ (∃ msg,
        terraformVersionProbe (VersionCmdOutput.rawText "not a version banner")
          = Except.error msg) := by
  refine ⟨fun tv => rfl, ?_, ?_⟩
  · rfl
  · exact ⟨_, rfl⟩

end ClaimC9
